import Mathlib

/-!
Verification of the brd (RAM-backed block device) storage engine from
drivers/block/brd.c, Linux 5.10.149.

The radix tree `brd_pages` is modelled as a key-sorted association list from
page index to `Page`; a `Page` carries its recorded `index` field
(`page->index`) and its payload as a byte function `Nat → Nat`.  Memory
allocation (`alloc_page` together with `radix_tree_preload`, either of which
failing makes `brd_insert_page` return NULL with the tree unchanged) is
modelled by an oracle `List Bool` consumed one entry per allocation attempt.
Machine arithmetic on sectors and offsets uses the same shift/mask
expressions as the C source, over `Nat`.
-/

namespace Brd

/-- SECTOR_SHIFT from the kernel: a sector is 512 = 2^9 bytes. -/
def SECTOR_SHIFT : Nat := 9

/-- SECTOR_SIZE = 1 << SECTOR_SHIFT. -/
def SECTOR_SIZE : Nat := 2 ^ SECTOR_SHIFT

/-- PAGE_SHIFT on the target (arm64 rk3399, 4K pages): 12. -/
def PAGE_SHIFT : Nat := 12

/-- PAGE_SIZE = 1 << PAGE_SHIFT = 4096. -/
def PAGE_SIZE : Nat := 2 ^ PAGE_SHIFT

/-- PAGE_SECTORS_SHIFT = PAGE_SHIFT - SECTOR_SHIFT (brd.c line 28). -/
def PAGE_SECTORS_SHIFT : Nat := PAGE_SHIFT - SECTOR_SHIFT

/-- PAGE_SECTORS = 1 << PAGE_SECTORS_SHIFT (brd.c line 29). -/
def PAGE_SECTORS : Nat := 2 ^ PAGE_SECTORS_SHIFT

/-- The ENOSPC errno value; `copy_to_brd_setup` returns `-ENOSPC`. -/
def ENOSPC : Int := 28

/-- A backing-store page: `index` is the recorded `page->index`, `data` the
page payload, byte `i` of the page being `data i` (only `i < PAGE_SIZE` is
ever addressed by the driver). Freshly allocated pages are zero-filled
(`__GFP_ZERO`). -/
structure Page where
  index : Nat
  data : Nat → Nat

/-- A zero-filled page recorded at index `idx`, as produced by
`alloc_page(GFP_NOIO | __GFP_ZERO | __GFP_HIGHMEM)` followed by
`page->index = idx`. -/
def zeroPage (idx : Nat) : Page :=
  { index := idx, data := fun _ => 0 }

/-- The radix tree `brd->brd_pages`, abstracted as an association list from
page index (the radix-tree key) to the page stored there, kept sorted by
strictly increasing key (the radix tree is an ordered map). -/
abbrev RadixTree := List (Nat × Page)

/-- `radix_tree_lookup`: first entry with the given key, if any. -/
def rtLookup (t : RadixTree) (idx : Nat) : Option Page :=
  match t with
  | [] => none
  | (k, p) :: rest => if k = idx then some p else rtLookup rest idx

/-- `radix_tree_insert`: insert keeping keys sorted; returns `false` (the
C code's -EEXIST) and the unchanged tree when the key is already present. -/
def rtInsert (t : RadixTree) (idx : Nat) (p : Page) : Bool × RadixTree :=
  match t with
  | [] => (true, [(idx, p)])
  | (k, q) :: rest =>
    if idx < k then (true, (idx, p) :: (k, q) :: rest)
    else if idx = k then (false, (k, q) :: rest)
    else
      let r := rtInsert rest idx p
      (r.1, (k, q) :: r.2)

/-- `radix_tree_delete`: remove the entry with the given key. -/
def rtDelete (t : RadixTree) (idx : Nat) : RadixTree :=
  t.filter (fun e => e.1 ≠ idx)

/-- In-place mutation of the page stored at key `idx` (the C code mutates
the looked-up page object through `kmap_atomic`). -/
def rtUpdate (t : RadixTree) (idx : Nat) (f : Page → Page) : RadixTree :=
  match t with
  | [] => []
  | (k, q) :: rest =>
    if k = idx then (k, f q) :: rtUpdate rest idx f
    else (k, q) :: rtUpdate rest idx f

/-- `radix_tree_gang_lookup(root, results, first_index, max_items)`: the
first `n` entries with key at least `pos`, in key order. -/
def radix_tree_gang_lookup (t : RadixTree) (pos n : Nat) : List (Nat × Page) :=
  (t.filter (fun e => pos ≤ e.1)).take n

/-- `brd_lookup_page` (brd.c lines 56-80): look up the page backing
`sector`; the page index is `sector >> PAGE_SECTORS_SHIFT`. Never
allocates. -/
def brd_lookup_page (t : RadixTree) (sector : Nat) : Option Page :=
  rtLookup t (sector >>> PAGE_SECTORS_SHIFT)

/-- `brd_insert_page` (brd.c lines 87-125): return the existing page for
`sector` if present; otherwise allocate a zero page (oracle-controlled, one
oracle entry consumed per attempt; `false` or an exhausted oracle models
`alloc_page`/`radix_tree_preload` failure returning NULL with the tree
unchanged), set its recorded index, and insert it at that index.  The
insert-collision branch (concurrent winner) frees the speculative page and
returns the winner; sequentially it is unreachable. -/
def brd_insert_page (alloc : List Bool) (t : RadixTree) (sector : Nat) :
    Option Page × RadixTree × List Bool :=
  match brd_lookup_page t sector with
  | some page => (some page, t, alloc)
  | none =>
    match alloc with
    | [] => (none, t, [])
    | ok :: rest =>
      if ok then
        let idx := sector >>> PAGE_SECTORS_SHIFT
        let page := zeroPage idx
        let r := rtInsert t idx page
        if r.1 then (some page, r.2, rest)
        else (rtLookup r.2 idx, r.2, rest)
      else (none, t, rest)

/-- FREE_BATCH (brd.c line 131). -/
def FREE_BATCH : Nat := 16

/-- Result of `brd_free_pages`: the batch sizes in order, the number of
`cond_resched()` calls (one per do-while iteration, i.e. after every
batch), and the final tree. -/
structure FreeResult where
  batches : List Nat
  yields : Nat
  tree : RadixTree

/-- The do-while loop of `brd_free_pages` (brd.c lines 138-167): gang-look
up to FREE_BATCH pages from `pos`, delete each by its recorded index
advancing `pos`, increment `pos`, yield, and repeat while a full batch was
found.  `fuel` bounds the recursion; `brd_free_pages` supplies enough. -/
def brdFreeLoop : Nat → Nat → RadixTree → FreeResult
  | 0, _, t => { batches := [], yields := 0, tree := t }
  | fuel + 1, pos, t =>
    let pages := radix_tree_gang_lookup t pos FREE_BATCH
    let nr := pages.length
    let t2 := pages.foldl (fun acc e => rtDelete acc e.2.index) t
    let pos2 := (pages.foldl (fun _ e => e.2.index) pos) + 1
    if nr = FREE_BATCH then
      let r := brdFreeLoop fuel pos2 t2
      { batches := nr :: r.batches, yields := 1 + r.yields, tree := r.tree }
    else { batches := [nr], yields := 1, tree := t2 }

/-- `brd_free_pages` (brd.c lines 132-168), starting at pos 0. -/
def brd_free_pages (t : RadixTree) : FreeResult :=
  brdFreeLoop (t.length + 1) 0 t

/-- memcpy(dst + dstOff, src + srcOff, n) over byte functions. -/
def memcpy (dst : Nat → Nat) (dstOff : Nat) (src : Nat → Nat) (srcOff n : Nat) :
    Nat → Nat :=
  fun i => if dstOff ≤ i ∧ i < dstOff + n then src (srcOff + (i - dstOff)) else dst i

/-- memset(dst + dstOff, 0, n) over byte functions. -/
def memset0 (dst : Nat → Nat) (dstOff n : Nat) : Nat → Nat :=
  fun i => if dstOff ≤ i ∧ i < dstOff + n then 0 else dst i

/-- `copy_to_brd_setup` (brd.c lines 173-187): make sure the page backing
`sector` (and the one after it when the `n`-byte span crosses the page
boundary) exists, returning `-ENOSPC` when allocation fails. -/
def copy_to_brd_setup (alloc : List Bool) (t : RadixTree) (sector n : Nat) :
    Int × RadixTree × List Bool :=
  let offset := (sector &&& (PAGE_SECTORS - 1)) <<< SECTOR_SHIFT
  let copy := min n (PAGE_SIZE - offset)
  let r1 := brd_insert_page alloc t sector
  match r1.1 with
  | none => (-ENOSPC, r1.2.1, r1.2.2)
  | some _ =>
    if copy < n then
      let r2 := brd_insert_page r1.2.2 r1.2.1 (sector + (copy >>> SECTOR_SHIFT))
      match r2.1 with
      | none => (-ENOSPC, r2.2.1, r2.2.2)
      | some _ => (0, r2.2.1, r2.2.2)
    else (0, r1.2.1, r1.2.2)

/-- Mutate the page found by `brd_lookup_page t sector` (the kmap/memcpy
step of `copy_to_brd`).  The `none` branch is the C code's `BUG_ON(!page)`:
unreachable after a successful `copy_to_brd_setup`. -/
def brd_write_page (t : RadixTree) (sector : Nat) (f : Page → Page) : RadixTree :=
  match brd_lookup_page t sector with
  | none => t
  | some _ => rtUpdate t (sector >>> PAGE_SECTORS_SHIFT) f

/-- `copy_to_brd` (brd.c lines 193-220): copy `n` bytes from the caller
buffer `src` at `srcOff` into the store starting at `sector`, splitting at
the page boundary. -/
def copy_to_brd (t : RadixTree) (src : Nat → Nat) (srcOff sector n : Nat) :
    RadixTree :=
  let offset := (sector &&& (PAGE_SECTORS - 1)) <<< SECTOR_SHIFT
  let copy := min n (PAGE_SIZE - offset)
  let t1 := brd_write_page t sector
    (fun pg => { pg with data := memcpy pg.data offset src srcOff copy })
  if copy < n then
    brd_write_page t1 (sector + (copy >>> SECTOR_SHIFT))
      (fun pg => { pg with data := memcpy pg.data 0 src (srcOff + copy) (n - copy) })
  else t1

/-- `copy_from_brd` (brd.c lines 225-254): copy `n` bytes from the store
starting at `sector` into the caller buffer `dst` at `dstOff`, splitting at
the page boundary; an absent page yields zero bytes. -/
def copy_from_brd (dst : Nat → Nat) (dstOff : Nat) (t : RadixTree)
    (sector n : Nat) : Nat → Nat :=
  let offset := (sector &&& (PAGE_SECTORS - 1)) <<< SECTOR_SHIFT
  let copy := min n (PAGE_SIZE - offset)
  let d1 :=
    match brd_lookup_page t sector with
    | some page => memcpy dst dstOff page.data offset copy
    | none => memset0 dst dstOff copy
  if copy < n then
    match brd_lookup_page t (sector + (copy >>> SECTOR_SHIFT)) with
    | some page => memcpy d1 (dstOff + copy) page.data 0 (n - copy)
    | none => memset0 d1 (dstOff + copy) (n - copy)
  else d1

/-- REQ_OP_READ. -/
def REQ_OP_READ : Nat := 0

/-- REQ_OP_WRITE. -/
def REQ_OP_WRITE : Nat := 1

/-- `op_is_write(op)` = `op & 1`. -/
def op_is_write (op : Nat) : Bool := op &&& 1 = 1

/-- Result of `brd_do_bvec`: the returned errno, the device tree, the
caller's (kmapped) segment buffer, and the remaining allocation oracle. -/
structure BvecResult where
  err : Int
  tree : RadixTree
  mem : Nat → Nat
  alloc : List Bool

/-- `brd_do_bvec` (brd.c lines 264-289): one segment of at most one page
boundary crossing.  A write runs `copy_to_brd_setup` then `copy_to_brd`; a
read runs `copy_from_brd` into the caller buffer at `off`. -/
def brd_do_bvec (alloc : List Bool) (t : RadixTree) (mem : Nat → Nat)
    (len off op sector : Nat) : BvecResult :=
  if op_is_write op then
    let s := copy_to_brd_setup alloc t sector len
    if s.1 ≠ 0 then { err := s.1, tree := s.2.1, mem := mem, alloc := s.2.2 }
    else
      { err := 0, tree := copy_to_brd s.2.1 mem off sector len, mem := mem,
        alloc := s.2.2 }
  else
    { err := 0, tree := t, mem := copy_from_brd mem off t sector len,
      alloc := alloc }

/-- Logical byte `addr` of the device: the byte stored in the backing page
if present, zero otherwise (sparse storage reads as zero). -/
def brd_byte (t : RadixTree) (addr : Nat) : Nat :=
  match rtLookup t (addr / PAGE_SIZE) with
  | some pg => pg.data (addr % PAGE_SIZE)
  | none => 0

/-- One `bio_vec` segment: the kmapped caller page buffer, the byte length
`bv_len` and byte offset `bv_offset`. -/
structure Bvec where
  mem : Nat → Nat
  len : Nat
  off : Nat

/-- A bio: starting sector `bi_sector`, the request op, and the ordered
segment list `bi_io_vec`. -/
structure Bio where
  sector : Nat
  op : Nat
  segs : List Bvec

/-- `bi_size`: total byte length of the bio. -/
def bio_size (b : Bio) : Nat := (b.segs.map Bvec.len).sum

/-- `bio_end_sector(bio)` = `bi_sector + (bi_size >> 9)`. -/
def bio_end_sector (b : Bio) : Nat := b.sector + (bio_size b >>> SECTOR_SHIFT)

/-- The completion status the block layer reports to the bio's submitter:
`bio_endio` on success, `bio_io_error` (BLK_STS_IOERR) on failure.  This is
the entire per-request result visible to the caller. -/
inductive BioStatus where
  | ok
  | ioerr
deriving DecidableEq, Repr

/-- The `bio_for_each_segment` loop of `brd_submit_bio` (brd.c lines
340-353): process segments in order through `brd_do_bvec`, advancing the
sector cursor by `len >> SECTOR_SHIFT`, aborting at the first error.
Returns the status, final tree, the final segment buffers in order
(unprocessed ones unchanged), and the remaining oracle. -/
def submitLoop (op : Nat) : List Bool → RadixTree → Nat → List Bvec →
    BioStatus × RadixTree × List (Nat → Nat) × List Bool
  | alloc, t, _, [] => (BioStatus.ok, t, [], alloc)
  | alloc, t, sector, bv :: rest =>
    let r := brd_do_bvec alloc t bv.mem bv.len bv.off op sector
    if r.err ≠ 0 then (BioStatus.ioerr, r.tree, r.mem :: rest.map Bvec.mem, r.alloc)
    else
      let rr := submitLoop op r.alloc r.tree (sector + (bv.len >>> SECTOR_SHIFT)) rest
      (rr.1, rr.2.1, r.mem :: rr.2.2.1, rr.2.2.2)

/-- Caller-visible outcome of `brd_submit_bio`: the bio status plus the
caller's segment buffers; `tree` and `alloc` carry the device/oracle state. -/
structure SubmitResult where
  status : BioStatus
  tree : RadixTree
  mems : List (Nat → Nat)
  alloc : List Bool

/-- `brd_submit_bio` (brd.c lines 328-360): reject the bio up front when
`bio_end_sector(bio) > get_capacity(disk)`, otherwise run the segment loop. -/
def brd_submit_bio (alloc : List Bool) (capacity : Nat) (t : RadixTree)
    (bio : Bio) : SubmitResult :=
  if bio_end_sector bio > capacity then
    { status := BioStatus.ioerr, tree := t, mems := bio.segs.map Bvec.mem,
      alloc := alloc }
  else
    let r := submitLoop bio.op alloc t bio.sector bio.segs
    { status := r.1, tree := r.2.1, mems := r.2.2.1, alloc := r.2.2.2 }

/-- Ghost observer: how many segments of the bio complete successfully
before the first failure (not part of any value the code reports). -/
def submitCompleted (op : Nat) : List Bool → RadixTree → Nat → List Bvec → Nat
  | _, _, _, [] => 0
  | alloc, t, sector, bv :: rest =>
    let r := brd_do_bvec alloc t bv.mem bv.len bv.off op sector
    if r.err ≠ 0 then 0
    else 1 + submitCompleted op r.alloc r.tree (sector + (bv.len >>> SECTOR_SHIFT)) rest

/-- Ghost observer at the request level. -/
def brd_segments_completed (alloc : List Bool) (capacity : Nat) (t : RadixTree)
    (bio : Bio) : Nat :=
  if bio_end_sector bio > capacity then 0
  else submitCompleted bio.op alloc t bio.sector bio.segs

/-- State evolution of the prefix of a segment list: tree and oracle after
running every segment through `brd_do_bvec` in order (used to phrase the
committed-prefix property of `brd_submit_bio`). -/
def runSegs (op : Nat) : List Bool → RadixTree → Nat → List Bvec →
    RadixTree × List Bool
  | alloc, t, _, [] => (t, alloc)
  | alloc, t, sector, bv :: rest =>
    let r := brd_do_bvec alloc t bv.mem bv.len bv.off op sector
    runSegs op r.alloc r.tree (sector + (bv.len >>> SECTOR_SHIFT)) rest

/-- One device-level operation for the reachable-state semantics of the
store: a write segment (with its allocation oracle) or a read segment, each
dispatched through `brd_do_bvec`. -/
inductive TraceOp where
  | wr (alloc : List Bool) (mem : Nat → Nat) (len off sector : Nat)
  | rd (len off sector : Nat)

/-- Run one trace operation on a tree.  Returns the new tree and, for a
write that completed successfully, the byte interval (start address,
length) it copied into the store. -/
def stepOp (t : RadixTree) : TraceOp → RadixTree × Option (Nat × Nat)
  | TraceOp.wr alloc mem len off sector =>
    let r := brd_do_bvec alloc t mem len off REQ_OP_WRITE sector
    (r.tree, if r.err = 0 then some (sector <<< SECTOR_SHIFT, len) else none)
  | TraceOp.rd len off sector =>
    let r := brd_do_bvec [] t (fun _ => 0) len off REQ_OP_READ sector
    (r.tree, none)

/-- Fold a trace, accumulating the successful-write intervals. -/
def runTraceAux : RadixTree → List (Nat × Nat) → List TraceOp →
    RadixTree × List (Nat × Nat)
  | t, w, [] => (t, w)
  | t, w, op :: rest =>
    let r := stepOp t op
    runTraceAux r.1 (match r.2 with | some iv => w ++ [iv] | none => w) rest

/-- Run a trace from a freshly created device (empty store). -/
def runTrace (ops : List TraceOp) : RadixTree × List (Nat × Nat) :=
  runTraceAux [] [] ops

/-- Does the byte interval `iv` (start, length) intersect page `idx`, whose
bytes are `[idx * PAGE_SIZE, (idx+1) * PAGE_SIZE)`. -/
def intervalHitsPage (iv : Nat × Nat) (idx : Nat) : Bool :=
  decide (iv.1 < (idx + 1) * PAGE_SIZE ∧ idx * PAGE_SIZE < iv.1 + iv.2)

/-- Has some byte of page `idx` been written by a successful write. -/
def pageWritten (w : List (Nat × Nat)) (idx : Nat) : Bool :=
  w.any (fun iv => intervalHitsPage iv idx)

/-- The spec sentence of claim C6 as a decidable check on one trace and one
page index: the page is present after the trace iff some byte within it has
been written by a successful write of the trace. -/
def presentIffWritten (ops : List TraceOp) (idx : Nat) : Bool :=
  (rtLookup (runTrace ops).1 idx).isSome == pageWritten (runTrace ops).2 idx

/-- The page indices a write segment targets through `copy_to_brd_setup`:
the page backing its first sector and, when the span crosses the page
boundary, the next one.  Reads target none. -/
def opTargets : TraceOp → List Nat
  | TraceOp.wr _ _ len _ sector =>
    let offset := (sector &&& (PAGE_SECTORS - 1)) <<< SECTOR_SHIFT
    let copy := min len (PAGE_SIZE - offset)
    if copy < len then
      [sector >>> PAGE_SECTORS_SHIFT,
       (sector + (copy >>> SECTOR_SHIFT)) >>> PAGE_SECTORS_SHIFT]
    else [sector >>> PAGE_SECTORS_SHIFT]
  | TraceOp.rd _ _ _ => []

/-- All page indices targeted by writes of a trace. -/
def traceTargets (ops : List TraceOp) : List Nat :=
  (ops.map opTargets).flatten

/-- The device registry entry of brd: device number and an allocation tag
standing for the identity of the `struct brd_device` object. -/
structure BrdDev where
  brd_number : Nat
  tag : Nat
deriving DecidableEq, Repr

/-- `brd_alloc(i)` (brd.c lines 417-463): allocate a fresh device numbered
`i`, or fail (NULL) when out of memory; `counter` makes the identity tag. -/
def brd_alloc (i : Nat) (allocOk : Bool) (counter : Nat) : Option BrdDev :=
  if allocOk then some { brd_number := i, tag := counter } else none

/-- `brd_init_one(i, &new)` (brd.c lines 473-492): return the device
numbered `i` from `brd_devices` if present (`*new = false`); otherwise
allocate one, append it to the list and return it (`*new = true`, also set
when allocation fails).  `brd_probe` calls this under `brd_devices_mutex`
with `i = MINOR(dev) / max_part`. -/
def brd_init_one (i : Nat) (devices : List BrdDev) (allocOk : Bool)
    (counter : Nat) : Option BrdDev × List BrdDev × Bool × Nat :=
  match devices.find? (fun d => d.brd_number == i) with
  | some d => (some d, devices, false, counter)
  | none =>
    match brd_alloc i allocOk counter with
    | some brd => (some brd, devices ++ [brd], true, counter + 1)
    | none => (none, devices, true, counter)

/-- The bio of the C5 witness: one 512-byte write segment at sector 0. -/
def c5bio : Bio :=
  { sector := 0, op := REQ_OP_WRITE,
    segs := [{ mem := fun _ => 1, len := 512, off := 0 }] }

/-- The bio of the C7 counterexample and witness: two page-sized write
segments, landing in pages 0 and 1. -/
def c7bio : Bio :=
  { sector := 0, op := REQ_OP_WRITE,
    segs := [{ mem := fun _ => 7, len := 4096, off := 0 },
             { mem := fun _ => 9, len := 4096, off := 0 }] }

/-- Length discipline of the dispatcher contract for trace operations: a
write segment carries at most one page of bytes (callers present
page-bounded segments). -/
def opLenOk : TraceOp → Prop
  | TraceOp.wr _ _ len _ _ => len ≤ PAGE_SIZE
  | TraceOp.rd _ _ _ => True

/-- The C6 counterexample trace: one boundary-crossing write at sector 4
whose second page allocation fails, so the write returns -ENOSPC after
having inserted the zero page at index 0 without copying any byte. -/
def c6trace : List TraceOp :=
  [TraceOp.wr [true, false] (fun _ => 0) PAGE_SIZE 0 4]

/-! ### Arithmetic bridges between the C shift/mask expressions and `/`, `%` -/

theorem offset_eq (s : Nat) :
    (s &&& (PAGE_SECTORS - 1)) <<< SECTOR_SHIFT = s % 8 * 512 := by
  have h : s &&& (PAGE_SECTORS - 1) = s % 8 := by
    have h3 := Nat.and_pow_two_sub_one_eq_mod s 3
    norm_num at h3
    simpa [PAGE_SECTORS, PAGE_SECTORS_SHIFT, PAGE_SHIFT, SECTOR_SHIFT] using h3
  rw [h, Nat.shiftLeft_eq]
  norm_num [SECTOR_SHIFT]

theorem shiftr_sectors_eq (s : Nat) : s >>> PAGE_SECTORS_SHIFT = s / 8 := by
  rw [Nat.shiftRight_eq_div_pow]
  norm_num [PAGE_SECTORS_SHIFT, PAGE_SHIFT, SECTOR_SHIFT]

theorem shiftr_sector_eq (s : Nat) : s >>> SECTOR_SHIFT = s / 512 := by
  rw [Nat.shiftRight_eq_div_pow]
  norm_num [SECTOR_SHIFT]

theorem page_size_eq : PAGE_SIZE = 4096 := by norm_num [PAGE_SIZE, PAGE_SHIFT]

/-! ### Radix-tree lemmas -/

theorem rtInsert_succeeds (t : RadixTree) (idx : Nat) (p : Page)
    (h : rtLookup t idx = none) : (rtInsert t idx p).1 = true := by
  induction t with
  | nil => simp [rtInsert]
  | cons e rest ih =>
    obtain ⟨k, q⟩ := e
    simp only [rtLookup] at h
    by_cases hk : k = idx
    · simp [hk] at h
    · simp only [if_neg hk] at h
      simp only [rtInsert]
      by_cases h1 : idx < k
      · simp [h1]
      · have h2 : ¬ idx = k := fun hh => hk hh.symm
        simp only [if_neg h1, if_neg h2]
        exact ih h

theorem rtLookup_rtInsert_same (t : RadixTree) (idx : Nat) (p : Page)
    (h : rtLookup t idx = none) : rtLookup (rtInsert t idx p).2 idx = some p := by
  induction t with
  | nil => simp [rtInsert, rtLookup]
  | cons e rest ih =>
    obtain ⟨k, q⟩ := e
    simp only [rtLookup] at h
    by_cases hk : k = idx
    · simp [hk] at h
    · simp only [if_neg hk] at h
      simp only [rtInsert]
      by_cases h1 : idx < k
      · simp [h1, rtLookup]
      · have h2 : ¬ idx = k := fun hh => hk hh.symm
        simp only [if_neg h1, if_neg h2]
        simp [rtLookup, hk, ih h]

theorem rtLookup_rtInsert_other (t : RadixTree) (idx j : Nat) (p : Page)
    (hj : j ≠ idx) : rtLookup (rtInsert t idx p).2 j = rtLookup t j := by
  have hij : ¬ idx = j := fun h => hj h.symm
  induction t with
  | nil => simp [rtInsert, rtLookup, hij]
  | cons e rest ih =>
    obtain ⟨k, q⟩ := e
    simp only [rtInsert]
    by_cases h1 : idx < k
    · simp [h1, rtLookup, hij]
    · by_cases h2 : idx = k
      · simp [h1, h2, rtLookup]
      · simp only [if_neg h1, if_neg h2]
        by_cases hk : k = j
        · simp [rtLookup, hk]
        · simp [rtLookup, hk, ih]

theorem rtLookup_rtUpdate_same (t : RadixTree) (idx : Nat) (f : Page → Page) :
    rtLookup (rtUpdate t idx f) idx = (rtLookup t idx).map f := by
  induction t with
  | nil => simp [rtUpdate, rtLookup]
  | cons e rest ih =>
    obtain ⟨k, q⟩ := e
    by_cases hk : k = idx
    · subst hk
      simp [rtUpdate, rtLookup]
    · simp [rtUpdate, rtLookup, hk, ih]

theorem rtLookup_rtUpdate_other (t : RadixTree) (idx j : Nat) (f : Page → Page)
    (hj : j ≠ idx) : rtLookup (rtUpdate t idx f) j = rtLookup t j := by
  have hij : ¬ idx = j := fun h => hj h.symm
  have hji : ¬ j = idx := hj
  induction t with
  | nil => simp [rtUpdate, rtLookup]
  | cons e rest ih =>
    obtain ⟨k, q⟩ := e
    by_cases hk : k = idx
    · have hkj : ¬ k = j := by
        rw [hk]
        exact hij
      simp [rtUpdate, rtLookup, hk, hkj, hij, hji, ih]
    · by_cases h2 : k = j
      · simp [rtUpdate, rtLookup, hk, h2, hij, hji]
      · simp [rtUpdate, rtLookup, hk, h2, hij, hji, ih]

/-! ### memcpy / memset lemmas -/

theorem memcpy_in (dst src : Nat → Nat) (a b n j : Nat) (h : j < n) :
    memcpy dst a src b n (a + j) = src (b + j) := by
  simp only [memcpy]
  rw [if_pos ⟨Nat.le_add_right a j, by omega⟩]
  congr 1
  omega

theorem memcpy_lo (dst src : Nat → Nat) (a b n i : Nat) (h : i < a) :
    memcpy dst a src b n i = dst i := by
  simp only [memcpy]
  rw [if_neg]
  omega

theorem memcpy_hi (dst src : Nat → Nat) (a b n i : Nat) (h : a + n ≤ i) :
    memcpy dst a src b n i = dst i := by
  simp only [memcpy]
  rw [if_neg]
  omega

theorem brd_insert_page_found (alloc : List Bool) (t : RadixTree) (sector : Nat)
    (p : Page) (h : brd_lookup_page t sector = some p) :
    brd_insert_page alloc t sector = (some p, t, alloc) := by
  simp [brd_insert_page, h]

theorem brd_insert_page_lookup (alloc : List Bool) (t : RadixTree) (sector : Nat)
    (p : Page) (h : (brd_insert_page alloc t sector).1 = some p) :
    brd_lookup_page (brd_insert_page alloc t sector).2.1 sector = some p := by
  rcases hl : brd_lookup_page t sector with _ | q
  · rcases alloc with _ | ⟨ok, rest⟩
    · simp [brd_insert_page, hl] at h
    · by_cases hok : ok = true
      · have hr := rtInsert_succeeds t (sector >>> PAGE_SECTORS_SHIFT)
          (zeroPage (sector >>> PAGE_SECTORS_SHIFT)) hl
        simp only [brd_insert_page, hl, hok, if_true, hr] at h ⊢
        simp only [brd_lookup_page] at hl ⊢
        rw [rtLookup_rtInsert_same t _ _ hl]
        exact h
      · simp [brd_insert_page, hl, hok] at h
  · rw [brd_insert_page_found alloc t sector q hl] at h ⊢
    simpa [hl] using h

theorem brd_insert_page_frame (alloc : List Bool) (t : RadixTree) (sector j : Nat)
    (hj : j ≠ sector >>> PAGE_SECTORS_SHIFT) :
    rtLookup (brd_insert_page alloc t sector).2.1 j = rtLookup t j := by
  rcases hl : brd_lookup_page t sector with _ | q
  · rcases alloc with _ | ⟨ok, rest⟩
    · simp [brd_insert_page, hl]
    · by_cases hok : ok = true
      · have hr := rtInsert_succeeds t (sector >>> PAGE_SECTORS_SHIFT)
          (zeroPage (sector >>> PAGE_SECTORS_SHIFT)) hl
        simp only [brd_insert_page, hl, hok, if_true, hr]
        exact rtLookup_rtInsert_other t _ j _ hj
      · simp [brd_insert_page, hl, hok]
  · simp [brd_insert_page_found alloc t sector q hl]

theorem brd_insert_page_none (alloc : List Bool) (t : RadixTree) (sector : Nat)
    (h : (brd_insert_page alloc t sector).1 = none) :
    (brd_insert_page alloc t sector).2.1 = t ∧ brd_lookup_page t sector = none ∧
      (alloc = [] ∨ alloc.head? = some false) := by
  rcases hl : brd_lookup_page t sector with _ | q
  · rcases alloc with _ | ⟨ok, rest⟩
    · simp [brd_insert_page, hl]
    · by_cases hok : ok = true
      · have hr := rtInsert_succeeds t (sector >>> PAGE_SECTORS_SHIFT)
          (zeroPage (sector >>> PAGE_SECTORS_SHIFT)) hl
        simp [brd_insert_page, hl, hok, hr] at h
      · have hok2 : ok = false := by
          cases ok
          · rfl
          · exact absurd rfl hok
        subst hok2
        simp [brd_insert_page, hl]
  · rw [brd_insert_page_found alloc t sector q hl] at h
    simp at h

theorem brd_insert_page_byte (alloc : List Bool) (t : RadixTree) (sector addr : Nat) :
    brd_byte (brd_insert_page alloc t sector).2.1 addr = brd_byte t addr := by
  rcases hl : brd_lookup_page t sector with _ | q
  · rcases alloc with _ | ⟨ok, rest⟩
    · simp [brd_insert_page, hl]
    · by_cases hok : ok = true
      · have hr := rtInsert_succeeds t (sector >>> PAGE_SECTORS_SHIFT)
          (zeroPage (sector >>> PAGE_SECTORS_SHIFT)) hl
        simp only [brd_insert_page, hl, hok, if_true, hr]
        by_cases ha : addr / PAGE_SIZE = sector >>> PAGE_SECTORS_SHIFT
        · simp only [brd_lookup_page] at hl
          simp only [brd_byte, ha, rtLookup_rtInsert_same t _ _ hl, hl, zeroPage]
        · simp only [brd_byte, rtLookup_rtInsert_other t _ _ _ ha]
      · simp [brd_insert_page, hl, hok]
  · simp [brd_insert_page_found alloc t sector q hl]

/-! ### copy_to_brd_setup lemmas -/

theorem cross_idx (sector n : Nat)
    (h : min n (PAGE_SIZE - ((sector &&& (PAGE_SECTORS - 1)) <<< SECTOR_SHIFT)) < n) :
    (sector + ((min n (PAGE_SIZE - ((sector &&& (PAGE_SECTORS - 1)) <<< SECTOR_SHIFT)))
        >>> SECTOR_SHIFT)) >>> PAGE_SECTORS_SHIFT
      = sector >>> PAGE_SECTORS_SHIFT + 1 := by
  rw [offset_eq, page_size_eq] at h ⊢
  rw [shiftr_sector_eq, shiftr_sectors_eq, shiftr_sectors_eq]
  omega

theorem copy_to_brd_setup_err (alloc : List Bool) (t : RadixTree) (sector n : Nat) :
    (copy_to_brd_setup alloc t sector n).1 = 0 ∨
      (copy_to_brd_setup alloc t sector n).1 = -ENOSPC := by
  rcases h1 : (brd_insert_page alloc t sector).1 with _ | p
  · simp only [copy_to_brd_setup, h1]
    exact Or.inr trivial
  · simp only [copy_to_brd_setup, h1]
    by_cases hc : min n (PAGE_SIZE - ((sector &&& (PAGE_SECTORS - 1)) <<< SECTOR_SHIFT)) < n
    · rw [if_pos hc]
      rcases h2 : (brd_insert_page (brd_insert_page alloc t sector).2.2
          (brd_insert_page alloc t sector).2.1
          (sector + ((min n (PAGE_SIZE - ((sector &&& (PAGE_SECTORS - 1)) <<< SECTOR_SHIFT)))
            >>> SECTOR_SHIFT))).1 with _ | q
      · simp only [h2]
        exact Or.inr trivial
      · simp only [h2]
        exact Or.inl trivial
    · rw [if_neg hc]
      exact Or.inl rfl

theorem copy_to_brd_setup_byte (alloc : List Bool) (t : RadixTree)
    (sector n addr : Nat) :
    brd_byte (copy_to_brd_setup alloc t sector n).2.1 addr = brd_byte t addr := by
  rcases h1 : (brd_insert_page alloc t sector).1 with _ | p
  · simp only [copy_to_brd_setup, h1]
    exact brd_insert_page_byte alloc t sector addr
  · simp only [copy_to_brd_setup, h1]
    by_cases hc : min n (PAGE_SIZE - ((sector &&& (PAGE_SECTORS - 1)) <<< SECTOR_SHIFT)) < n
    · rw [if_pos hc]
      rcases h2 : (brd_insert_page (brd_insert_page alloc t sector).2.2
          (brd_insert_page alloc t sector).2.1
          (sector + ((min n (PAGE_SIZE - ((sector &&& (PAGE_SECTORS - 1)) <<< SECTOR_SHIFT)))
            >>> SECTOR_SHIFT))).1 with _ | q
      · simp only [h2]
        rw [brd_insert_page_byte, brd_insert_page_byte]
      · simp only [h2]
        rw [brd_insert_page_byte, brd_insert_page_byte]
    · rw [if_neg hc]
      exact brd_insert_page_byte alloc t sector addr

theorem copy_to_brd_setup_lookup (alloc : List Bool) (t : RadixTree) (sector n : Nat)
    (h : (copy_to_brd_setup alloc t sector n).1 = 0) :
    (∃ p, brd_lookup_page (copy_to_brd_setup alloc t sector n).2.1 sector = some p) ∧
    (min n (PAGE_SIZE - ((sector &&& (PAGE_SECTORS - 1)) <<< SECTOR_SHIFT)) < n →
      ∃ p, brd_lookup_page (copy_to_brd_setup alloc t sector n).2.1
        (sector + ((min n (PAGE_SIZE - ((sector &&& (PAGE_SECTORS - 1)) <<< SECTOR_SHIFT)))
          >>> SECTOR_SHIFT)) = some p) := by
  rcases h1 : (brd_insert_page alloc t sector).1 with _ | p
  · simp only [copy_to_brd_setup, h1] at h
    norm_num [ENOSPC] at h
  · have hfst := brd_insert_page_lookup alloc t sector p h1
    by_cases hc : min n (PAGE_SIZE - ((sector &&& (PAGE_SECTORS - 1)) <<< SECTOR_SHIFT)) < n
    · rcases h2 : (brd_insert_page (brd_insert_page alloc t sector).2.2
          (brd_insert_page alloc t sector).2.1
          (sector + ((min n (PAGE_SIZE - ((sector &&& (PAGE_SECTORS - 1)) <<< SECTOR_SHIFT)))
            >>> SECTOR_SHIFT))).1 with _ | q
      · simp only [copy_to_brd_setup, h1] at h
        rw [if_pos hc] at h
        simp only [h2] at h
        norm_num [ENOSPC] at h
      · have hsnd := brd_insert_page_lookup _ _ _ q h2
        have hmove : brd_lookup_page (brd_insert_page (brd_insert_page alloc t sector).2.2
            (brd_insert_page alloc t sector).2.1
            (sector + ((min n (PAGE_SIZE - ((sector &&& (PAGE_SECTORS - 1)) <<< SECTOR_SHIFT)))
              >>> SECTOR_SHIFT))).2.1 sector = some p := by
          simp only [brd_lookup_page] at hfst ⊢
          rw [brd_insert_page_frame]
          · exact hfst
          · rw [cross_idx sector n hc]
            omega
        simp only [copy_to_brd_setup, h1]
        rw [if_pos hc]
        simp only [h2]
        exact ⟨⟨p, hmove⟩, fun _ => ⟨q, hsnd⟩⟩
    · simp only [copy_to_brd_setup, h1]
      rw [if_neg hc]
      exact ⟨⟨p, hfst⟩, fun hcc => absurd hcc hc⟩

/-! ### brd_do_bvec unfolding lemmas -/

theorem brd_do_bvec_write_ok (alloc : List Bool) (t : RadixTree) (mem : Nat → Nat)
    (len off op sector : Nat) (hop : op_is_write op = true)
    (hs : (copy_to_brd_setup alloc t sector len).1 = 0) :
    brd_do_bvec alloc t mem len off op sector =
      { err := 0,
        tree := copy_to_brd (copy_to_brd_setup alloc t sector len).2.1 mem off sector len,
        mem := mem, alloc := (copy_to_brd_setup alloc t sector len).2.2 } := by
  simp only [brd_do_bvec, hop, if_true, hs]
  simp

theorem brd_do_bvec_write_fail (alloc : List Bool) (t : RadixTree) (mem : Nat → Nat)
    (len off op sector : Nat) (hop : op_is_write op = true)
    (hs : (copy_to_brd_setup alloc t sector len).1 ≠ 0) :
    brd_do_bvec alloc t mem len off op sector =
      { err := (copy_to_brd_setup alloc t sector len).1,
        tree := (copy_to_brd_setup alloc t sector len).2.1,
        mem := mem, alloc := (copy_to_brd_setup alloc t sector len).2.2 } := by
  simp only [brd_do_bvec, hop, if_true, hs]
  simp
  intro h
  exact absurd h hs

theorem brd_do_bvec_read_op (alloc : List Bool) (t : RadixTree) (mem : Nat → Nat)
    (len off op sector : Nat) (h : op_is_write op = false) :
    brd_do_bvec alloc t mem len off op sector =
      { err := 0, tree := t, mem := copy_from_brd mem off t sector len,
        alloc := alloc } := by
  simp only [brd_do_bvec, h, Bool.false_eq_true, if_false]

/-! ### The write/read round trip at the copy level -/

theorem copy_roundtrip (t' : RadixTree) (mem dst : Nat → Nat)
    (len off off2 sector : Nat) (p1 : Page)
    (hp1 : brd_lookup_page t' sector = some p1)
    (hp2 : min len (PAGE_SIZE - ((sector &&& (PAGE_SECTORS - 1)) <<< SECTOR_SHIFT)) < len →
      ∃ p, brd_lookup_page t'
        (sector + ((min len (PAGE_SIZE - ((sector &&& (PAGE_SECTORS - 1)) <<< SECTOR_SHIFT)))
          >>> SECTOR_SHIFT)) = some p)
    (j : Nat) (hj : j < len) :
    copy_from_brd dst off2 (copy_to_brd t' mem off sector len) sector len (off2 + j)
      = mem (off + j) := by
  by_cases hc : min len (PAGE_SIZE - ((sector &&& (PAGE_SECTORS - 1)) <<< SECTOR_SHIFT)) < len
  · obtain ⟨p2, hp2⟩ := hp2 hc
    have hidx2 := cross_idx sector len hc
    have hne : sector >>> PAGE_SECTORS_SHIFT ≠
        (sector + ((min len (PAGE_SIZE - ((sector &&& (PAGE_SECTORS - 1)) <<< SECTOR_SHIFT)))
          >>> SECTOR_SHIFT)) >>> PAGE_SECTORS_SHIFT := by
      rw [hidx2]
      omega
    have hl12 : ∀ f, brd_lookup_page (rtUpdate t' (sector >>> PAGE_SECTORS_SHIFT) f)
        (sector + ((min len (PAGE_SIZE - ((sector &&& (PAGE_SECTORS - 1)) <<< SECTOR_SHIFT)))
          >>> SECTOR_SHIFT)) = some p2 := by
      intro f
      simp only [brd_lookup_page] at hp2 ⊢
      rw [rtLookup_rtUpdate_other _ _ _ _ hne.symm]
      exact hp2
    have hlT1 : ∀ f g, brd_lookup_page
        (rtUpdate (rtUpdate t' (sector >>> PAGE_SECTORS_SHIFT) f)
          ((sector + ((min len (PAGE_SIZE - ((sector &&& (PAGE_SECTORS - 1)) <<< SECTOR_SHIFT)))
            >>> SECTOR_SHIFT)) >>> PAGE_SECTORS_SHIFT) g) sector = some (f p1) := by
      intro f g
      simp only [brd_lookup_page] at hp1 ⊢
      rw [rtLookup_rtUpdate_other _ _ _ _ hne, rtLookup_rtUpdate_same, hp1]
      rfl
    have hlT2 : ∀ f g, brd_lookup_page
        (rtUpdate (rtUpdate t' (sector >>> PAGE_SECTORS_SHIFT) f)
          ((sector + ((min len (PAGE_SIZE - ((sector &&& (PAGE_SECTORS - 1)) <<< SECTOR_SHIFT)))
            >>> SECTOR_SHIFT)) >>> PAGE_SECTORS_SHIFT) g)
        (sector + ((min len (PAGE_SIZE - ((sector &&& (PAGE_SECTORS - 1)) <<< SECTOR_SHIFT)))
          >>> SECTOR_SHIFT)) = some (g p2) := by
      intro f g
      simp only [brd_lookup_page] at hp2 ⊢
      rw [rtLookup_rtUpdate_same, rtLookup_rtUpdate_other _ _ _ _ hne.symm, hp2]
      rfl
    simp only [copy_to_brd, brd_write_page, hp1]
    rw [if_pos hc]
    simp only [hl12]
    simp only [copy_from_brd, hlT1, hlT2]
    rw [if_pos hc]
    by_cases hjc : j < min len (PAGE_SIZE - ((sector &&& (PAGE_SECTORS - 1)) <<< SECTOR_SHIFT))
    · rw [memcpy_lo _ _ _ _ _ _ (by omega), memcpy_in _ _ _ _ _ _ hjc]
      simp only [memcpy_in _ _ _ _ _ _ hjc]
    · have hsplit : off2 + j =
          (off2 + min len (PAGE_SIZE - ((sector &&& (PAGE_SECTORS - 1)) <<< SECTOR_SHIFT)))
            + (j - min len (PAGE_SIZE - ((sector &&& (PAGE_SECTORS - 1)) <<< SECTOR_SHIFT))) := by
        omega
      rw [hsplit, memcpy_in _ _ _ _ _ _ (by omega)]
      have hz : (0 : Nat) + (j - min len (PAGE_SIZE -
          ((sector &&& (PAGE_SECTORS - 1)) <<< SECTOR_SHIFT))) =
          0 + (j - min len (PAGE_SIZE - ((sector &&& (PAGE_SECTORS - 1)) <<< SECTOR_SHIFT))) := rfl
      rw [memcpy_in _ _ _ _ _ _ (by omega)]
      congr 1
      omega
  · simp only [copy_to_brd, brd_write_page, hp1]
    rw [if_neg hc]
    have hlT1 : ∀ f, brd_lookup_page (rtUpdate t' (sector >>> PAGE_SECTORS_SHIFT) f) sector
        = some (f p1) := by
      intro f
      simp only [brd_lookup_page] at hp1 ⊢
      rw [rtLookup_rtUpdate_same, hp1]
      rfl
    simp only [copy_from_brd, hlT1]
    rw [if_neg hc]
    rw [memcpy_in _ _ _ _ _ _ (by omega)]
    simp only [memcpy_in _ _ _ _ _ _ (show j < min len (PAGE_SIZE -
      ((sector &&& (PAGE_SECTORS - 1)) <<< SECTOR_SHIFT)) by omega)]

theorem brd_do_bvec_read (alloc : List Bool) (t : RadixTree) (mem : Nat → Nat)
    (len off sector : Nat) :
    brd_do_bvec alloc t mem len off REQ_OP_READ sector =
      { err := 0, tree := t, mem := copy_from_brd mem off t sector len,
        alloc := alloc } :=
  brd_do_bvec_read_op alloc t mem len off REQ_OP_READ sector (by decide)

/-! ### Claim theorems -/

/-- Claim C1: for every device state, every sector, and every byte sequence
of length at most one page, performing a write through `brd_do_bvec` with
the write op and then a read of the same sector range returns exactly the
written bytes in the caller's buffer. -/
theorem C1_write_read_roundtrip (alloc : List Bool) (t : RadixTree)
    (mem dst : Nat → Nat) (len off off2 sector : Nat)
    (hlen : len ≤ PAGE_SIZE)
    (hw : (brd_do_bvec alloc t mem len off REQ_OP_WRITE sector).err = 0) :
    ∀ j, j < len →
      (brd_do_bvec (brd_do_bvec alloc t mem len off REQ_OP_WRITE sector).alloc
          (brd_do_bvec alloc t mem len off REQ_OP_WRITE sector).tree
          dst len off2 REQ_OP_READ sector).mem (off2 + j) = mem (off + j) := by
  intro j hj
  have hs : (copy_to_brd_setup alloc t sector len).1 = 0 := by
    by_contra hne
    rw [brd_do_bvec_write_fail alloc t mem len off REQ_OP_WRITE sector (by decide) hne] at hw
    exact hne hw
  rw [brd_do_bvec_write_ok alloc t mem len off REQ_OP_WRITE sector (by decide) hs]
  simp only [brd_do_bvec_read]
  obtain ⟨⟨p1, hp1⟩, hp2⟩ := copy_to_brd_setup_lookup alloc t sector len hs
  exact copy_roundtrip _ mem dst len off off2 sector p1 hp1 hp2 j hj

/-- Witness for C1: writing bytes `i + 1` at sector 0 and reading them back
returns the written byte at position 3. -/
theorem C1_witness :
    512 ≤ PAGE_SIZE ∧
    (brd_do_bvec [true] [] (fun i => i + 1) 512 0 REQ_OP_WRITE 0).err = 0 ∧
    (brd_do_bvec (brd_do_bvec [true] [] (fun i => i + 1) 512 0 REQ_OP_WRITE 0).alloc
        (brd_do_bvec [true] [] (fun i => i + 1) 512 0 REQ_OP_WRITE 0).tree
        (fun _ => 0) 512 0 REQ_OP_READ 0).mem (0 + 3) = (fun i => i + 1) (0 + 3) :=
  ⟨by decide, by decide,
    C1_write_read_roundtrip [true] [] (fun i => i + 1) (fun _ => 0) 512 0 0 0
      (by decide) (by decide) 3 (by decide)⟩

/-- Claim C3: `brd_insert_page` returns the existing page and leaves the
store unchanged when one is present; otherwise it registers a zero-filled
page whose recorded index equals its key and returns it; it returns NULL
(`none`) only when memory cannot be obtained, in which case the store is
unchanged. -/
theorem C3_insert_or_get (alloc : List Bool) (t : RadixTree) (sector : Nat) :
    (∀ p, brd_lookup_page t sector = some p →
      brd_insert_page alloc t sector = (some p, t, alloc)) ∧
    (brd_lookup_page t sector = none → ∀ rest, alloc = true :: rest →
      brd_insert_page alloc t sector =
        (some (zeroPage (sector >>> PAGE_SECTORS_SHIFT)),
         (rtInsert t (sector >>> PAGE_SECTORS_SHIFT)
           (zeroPage (sector >>> PAGE_SECTORS_SHIFT))).2, rest) ∧
      brd_lookup_page (brd_insert_page alloc t sector).2.1 sector =
        some (zeroPage (sector >>> PAGE_SECTORS_SHIFT)) ∧
      (zeroPage (sector >>> PAGE_SECTORS_SHIFT)).index = sector >>> PAGE_SECTORS_SHIFT) ∧
    ((brd_insert_page alloc t sector).1 = none →
      (brd_insert_page alloc t sector).2.1 = t ∧ brd_lookup_page t sector = none ∧
        (alloc = [] ∨ alloc.head? = some false)) := by
  refine ⟨fun p h => brd_insert_page_found alloc t sector p h, ?_,
    brd_insert_page_none alloc t sector⟩
  intro hl rest ha
  subst ha
  have hr := rtInsert_succeeds t (sector >>> PAGE_SECTORS_SHIFT)
    (zeroPage (sector >>> PAGE_SECTORS_SHIFT)) hl
  refine ⟨by simp [brd_insert_page, hl, hr], ?_, rfl⟩
  exact brd_insert_page_lookup _ _ _ _ (by simp [brd_insert_page, hl, hr])

/-- Witness for C3: inserting into an empty store at sector 0 registers the
zero page at index 0 and makes it the lookup result. -/
theorem C3_witness :
    brd_insert_page [true] [] 0 =
      (some (zeroPage (0 >>> PAGE_SECTORS_SHIFT)),
       (rtInsert [] (0 >>> PAGE_SECTORS_SHIFT) (zeroPage (0 >>> PAGE_SECTORS_SHIFT))).2,
       []) ∧
    brd_lookup_page (brd_insert_page [true] [] 0).2.1 0 =
      some (zeroPage (0 >>> PAGE_SECTORS_SHIFT)) ∧
    (zeroPage (0 >>> PAGE_SECTORS_SHIFT)).index = 0 >>> PAGE_SECTORS_SHIFT :=
  (C3_insert_or_get [true] [] 0).2.1 rfl [] rfl

/-- Claim C4: when `copy_to_brd_setup` fails for a write segment, the
segment fails with -ENOSPC, `copy_to_brd` is never reached (the returned
tree is exactly the setup tree), and every stored byte of the device is
unchanged. -/
theorem C4_nospace_preserves_bytes (alloc : List Bool) (t : RadixTree)
    (mem : Nat → Nat) (len off sector : Nat)
    (hfail : (copy_to_brd_setup alloc t sector len).1 ≠ 0) :
    (brd_do_bvec alloc t mem len off REQ_OP_WRITE sector).err = -ENOSPC ∧
    (brd_do_bvec alloc t mem len off REQ_OP_WRITE sector).tree =
      (copy_to_brd_setup alloc t sector len).2.1 ∧
    ∀ addr, brd_byte (brd_do_bvec alloc t mem len off REQ_OP_WRITE sector).tree addr
      = brd_byte t addr := by
  rw [brd_do_bvec_write_fail alloc t mem len off REQ_OP_WRITE sector (by decide) hfail]
  have herr : (copy_to_brd_setup alloc t sector len).1 = -ENOSPC := by
    rcases copy_to_brd_setup_err alloc t sector len with h | h
    · exact absurd h hfail
    · exact h
  exact ⟨herr, rfl, fun addr => copy_to_brd_setup_byte alloc t sector len addr⟩

/-- Witness for C4: a write with an exhausted allocation oracle fails with
-ENOSPC and leaves byte 100 of the device unchanged. -/
theorem C4_witness :
    (brd_do_bvec [] [] (fun i => i + 9) 512 0 REQ_OP_WRITE 0).err = -ENOSPC ∧
    brd_byte (brd_do_bvec [] [] (fun i => i + 9) 512 0 REQ_OP_WRITE 0).tree 100
      = brd_byte [] 100 := by
  obtain ⟨he, ht, hb⟩ := C4_nospace_preserves_bytes [] [] (fun i => i + 9) 512 0 0
    (by decide)
  exact ⟨he, hb 100⟩

/-- Claim C10: a non-write `brd_do_bvec` call always returns 0 and changes
neither the page store nor the allocation oracle: reads cannot fail,
whatever pages exist. -/
theorem C10_read_never_fails (alloc : List Bool) (t : RadixTree) (mem : Nat → Nat)
    (len off op sector : Nat) (h : op_is_write op = false) :
    (brd_do_bvec alloc t mem len off op sector).err = 0 ∧
    (brd_do_bvec alloc t mem len off op sector).tree = t ∧
    (brd_do_bvec alloc t mem len off op sector).alloc = alloc := by
  rw [brd_do_bvec_read_op alloc t mem len off op sector h]
  exact ⟨rfl, rfl, rfl⟩

/-- Witness for C10: a read of a one-page store with an empty oracle
returns 0 and leaves the store as it was. -/
theorem C10_witness :
    op_is_write REQ_OP_READ = false ∧
    (brd_do_bvec [] [(0, zeroPage 0)] (fun _ => 3) 4096 0 REQ_OP_READ 0).err = 0 ∧
    (brd_do_bvec [] [(0, zeroPage 0)] (fun _ => 3) 4096 0 REQ_OP_READ 0).tree
      = [(0, zeroPage 0)] :=
  ⟨by decide,
    (C10_read_never_fails [] [(0, zeroPage 0)] (fun _ => 3) 4096 0 REQ_OP_READ 0
      (by decide)).1,
    (C10_read_never_fails [] [(0, zeroPage 0)] (fun _ => 3) 4096 0 REQ_OP_READ 0
      (by decide)).2.1⟩

/-- Claim C5: a request whose sector range end exceeds the device capacity
is rejected with an I/O error before any segment is processed: the page
store, the caller buffers and the allocation oracle are all unchanged. -/
theorem C5_out_of_range (alloc : List Bool) (capacity : Nat) (t : RadixTree)
    (bio : Bio) (h : bio_end_sector bio > capacity) :
    (brd_submit_bio alloc capacity t bio).status = BioStatus.ioerr ∧
    (brd_submit_bio alloc capacity t bio).tree = t ∧
    (brd_submit_bio alloc capacity t bio).mems = bio.segs.map Bvec.mem ∧
    (brd_submit_bio alloc capacity t bio).alloc = alloc := by
  simp only [brd_submit_bio, if_pos h]
  exact ⟨trivial, trivial, trivial, trivial⟩

/-- Witness for C5: on a zero-capacity device the one-segment bio is
rejected with `ioerr` and the store stays empty. -/
theorem C5_witness :
    bio_end_sector c5bio > 0 ∧
    (brd_submit_bio [] 0 [] c5bio).status = BioStatus.ioerr ∧
    (brd_submit_bio [] 0 [] c5bio).tree = [] :=
  ⟨by decide, (C5_out_of_range [] 0 [] c5bio (by decide)).1,
    (C5_out_of_range [] 0 [] c5bio (by decide)).2.1⟩

/-- Claim C9: creating a device through `brd_init_one` is idempotent: a
second call with the same number returns the very same device and leaves
the registry unchanged; when the number is absent and allocation succeeds,
the new device is appended and returned. -/
theorem C9_idempotent_create (i : Nat) (devs : List BrdDev) (ok1 ok2 : Bool)
    (c1 c2 : Nat) :
    (∀ d devs1 n1 c1', brd_init_one i devs ok1 c1 = (some d, devs1, n1, c1') →
      brd_init_one i devs1 ok2 c2 = (some d, devs1, false, c2)) ∧
    (devs.find? (fun d => d.brd_number == i) = none →
      brd_init_one i devs true c1 =
        (some { brd_number := i, tag := c1 },
         devs ++ [{ brd_number := i, tag := c1 }], true, c1 + 1)) := by
  constructor
  · intro d devs1 n1 c1' h
    rcases hf : devs.find? (fun d => d.brd_number == i) with _ | d0
    · cases ok1 with
      | false =>
        simp [brd_init_one, hf, brd_alloc] at h
      | true =>
        simp only [brd_init_one, hf, brd_alloc, if_pos] at h
        simp only [Prod.mk.injEq, Option.some.injEq] at h
        obtain ⟨hd, hdevs, _, _⟩ := h
        subst hd
        subst hdevs
        have hfind : (devs ++ [({ brd_number := i, tag := c1 } : BrdDev)]).find?
            (fun d => d.brd_number == i) = some { brd_number := i, tag := c1 } := by
          rw [List.find?_append, hf]
          simp
        simp [brd_init_one, hfind]
    · simp only [brd_init_one, hf] at h
      simp only [Prod.mk.injEq, Option.some.injEq] at h
      obtain ⟨hd, hdevs, _, _⟩ := h
      subst hd
      subst hdevs
      simp [brd_init_one, hf]
  · intro hf
    simp [brd_init_one, hf, brd_alloc]

/-- Witness for C9: creating device 0 twice from an empty registry returns
the same instance both times and the registry has a single entry. -/
theorem C9_witness :
    brd_init_one 0 [] true 0 =
      (some { brd_number := 0, tag := 0 }, [{ brd_number := 0, tag := 0 }], true, 1) ∧
    brd_init_one 0 [{ brd_number := 0, tag := 0 }] true 5 =
      (some { brd_number := 0, tag := 0 }, [{ brd_number := 0, tag := 0 }], false, 5) := by
  have h2 := (C9_idempotent_create 0 [] true true 0 5).2 rfl
  have h1 := (C9_idempotent_create 0 [] true true 0 5).1
    { brd_number := 0, tag := 0 } [{ brd_number := 0, tag := 0 }] true 1 h2
  exact ⟨h2, h1⟩

/-- A failing `brd_do_bvec` call leaves every logical device byte
unchanged: the only failing path is a write whose setup failed, and setup
inserts only zero-filled pages. -/
theorem brd_do_bvec_err_bytes (alloc : List Bool) (t : RadixTree) (mem : Nat → Nat)
    (len off op sector : Nat)
    (h : (brd_do_bvec alloc t mem len off op sector).err ≠ 0) :
    ∀ addr, brd_byte (brd_do_bvec alloc t mem len off op sector).tree addr
      = brd_byte t addr := by
  by_cases hop : op_is_write op = true
  · by_cases hs : (copy_to_brd_setup alloc t sector len).1 = 0
    · rw [brd_do_bvec_write_ok alloc t mem len off op sector hop hs] at h
      exact absurd rfl h
    · rw [brd_do_bvec_write_fail alloc t mem len off op sector hop hs]
      intro addr
      exact copy_to_brd_setup_byte alloc t sector len addr
  · have hopf : op_is_write op = false := by
      cases hx : op_is_write op
      · rfl
      · exact absurd hx hop
    rw [brd_do_bvec_read_op alloc t mem len off op sector hopf] at h
    exact absurd rfl h

/-- The segment loop of `brd_submit_bio` reports ok exactly when every
segment completed, and the final tree's logical bytes are those of the
committed prefix of segments that completed before the first failure. -/
theorem submitLoop_spec (op : Nat) (segs : List Bvec) :
    ∀ alloc t sector,
    ((submitLoop op alloc t sector segs).1 = BioStatus.ok ↔
      submitCompleted op alloc t sector segs = segs.length) ∧
    ∀ addr, brd_byte (submitLoop op alloc t sector segs).2.1 addr =
      brd_byte (runSegs op alloc t sector
        (segs.take (submitCompleted op alloc t sector segs))).1 addr := by
  induction segs with
  | nil =>
    intro alloc t sector
    exact ⟨by simp [submitLoop, submitCompleted], fun addr => by
      simp [submitLoop, submitCompleted, runSegs]⟩
  | cons bv rest ih =>
    intro alloc t sector
    by_cases he : (brd_do_bvec alloc t bv.mem bv.len bv.off op sector).err ≠ 0
    · constructor
      · simp only [submitLoop, submitCompleted, if_pos he, List.length_cons]
        constructor
        · intro hx
          exact absurd hx (by simp)
        · intro hx
          omega
      · intro addr
        simp only [submitLoop, submitCompleted, if_pos he, List.take_zero, runSegs]
        exact brd_do_bvec_err_bytes alloc t bv.mem bv.len bv.off op sector he addr
    · obtain ⟨ih1, ih2⟩ := ih (brd_do_bvec alloc t bv.mem bv.len bv.off op sector).alloc
        (brd_do_bvec alloc t bv.mem bv.len bv.off op sector).tree
        (sector + (bv.len >>> SECTOR_SHIFT))
      constructor
      · simp only [submitLoop, submitCompleted, if_neg he, List.length_cons]
        rw [ih1]
        omega
      · intro addr
        simp only [submitLoop, submitCompleted, if_neg he]
        have htake : (bv :: rest).take (1 + submitCompleted op
            (brd_do_bvec alloc t bv.mem bv.len bv.off op sector).alloc
            (brd_do_bvec alloc t bv.mem bv.len bv.off op sector).tree
            (sector + (bv.len >>> SECTOR_SHIFT)) rest) =
            bv :: rest.take (submitCompleted op
              (brd_do_bvec alloc t bv.mem bv.len bv.off op sector).alloc
              (brd_do_bvec alloc t bv.mem bv.len bv.off op sector).tree
              (sector + (bv.len >>> SECTOR_SHIFT)) rest) := by
          rw [Nat.add_comm 1, List.take_succ_cons]
        rw [htake]
        simp only [runSegs]
        exact ih2 addr

/-- Claim C7 (amended): when the bio passes the capacity check, processing
aborts at the first failing segment; the segments completed before it stay
committed (the final tree's bytes are those of the committed prefix), and
the status is ok exactly when every segment completed — the status is the
only per-request result, it does not carry the completed count. -/
theorem C7_abort_first_failure (alloc : List Bool) (capacity : Nat)
    (t : RadixTree) (bio : Bio) (h : ¬ bio_end_sector bio > capacity) :
    ((brd_submit_bio alloc capacity t bio).status = BioStatus.ok ↔
      brd_segments_completed alloc capacity t bio = bio.segs.length) ∧
    ∀ addr, brd_byte (brd_submit_bio alloc capacity t bio).tree addr =
      brd_byte (runSegs bio.op alloc t bio.sector
        (bio.segs.take (brd_segments_completed alloc capacity t bio))).1 addr := by
  simp only [brd_submit_bio, brd_segments_completed, if_neg h]
  exact submitLoop_spec bio.op bio.segs alloc t bio.sector

/-- Counterexample for C7 as frozen: two runs of the same two-segment write
bio in which 0 resp. 1 segments complete return the very same caller-visible
status (`ioerr`), so the result reported to the caller cannot include how
many segments succeeded. -/
theorem C7_counterexample :
    (brd_submit_bio [false] 16 [] c7bio).status
      = (brd_submit_bio [true, false] 16 [] c7bio).status ∧
    brd_segments_completed [false] 16 [] c7bio = 0 ∧
    brd_segments_completed [true, false] 16 [] c7bio = 1 := by
  exact ⟨rfl, rfl, rfl⟩

/-- Witness for C7 at the concrete two-segment bio with one completed
segment. -/
theorem C7_witness :
    ¬ bio_end_sector c7bio > 16 ∧
    ((brd_submit_bio [true, false] 16 [] c7bio).status = BioStatus.ok ↔
      brd_segments_completed [true, false] 16 [] c7bio = c7bio.segs.length) ∧
    brd_byte (brd_submit_bio [true, false] 16 [] c7bio).tree 0 =
      brd_byte (runSegs c7bio.op [true, false] [] c7bio.sector
        (c7bio.segs.take (brd_segments_completed [true, false] 16 [] c7bio))).1 0 :=
  ⟨by decide, (C7_abort_first_failure [true, false] 16 [] c7bio (by decide)).1,
    (C7_abort_first_failure [true, false] 16 [] c7bio (by decide)).2 0⟩

/-! ### brd_free_pages lemmas -/

theorem gang_eq_take (t : RadixTree) (pos n : Nat) (hpos : ∀ e ∈ t, pos ≤ e.1) :
    radix_tree_gang_lookup t pos n = t.take n := by
  unfold radix_tree_gang_lookup
  congr 1
  rw [List.filter_eq_self]
  intro e he
  exact decide_eq_true (hpos e he)

theorem rtDelete_cons (k : Nat) (q : Page) (rest : RadixTree)
    (hnot : ∀ e ∈ rest, e.1 ≠ k) : rtDelete ((k, q) :: rest) k = rest := by
  unfold rtDelete
  rw [List.filter_cons]
  rw [if_neg (by simp)]
  rw [List.filter_eq_self]
  intro e he
  exact decide_eq_true (hnot e he)

theorem foldl_delete_take (n : Nat) : ∀ t : RadixTree,
    List.Pairwise (fun a b => a.1 < b.1) t → (∀ e ∈ t, e.2.index = e.1) →
    (t.take n).foldl (fun acc e => rtDelete acc e.2.index) t = t.drop n := by
  induction n with
  | zero =>
    intro t _ _
    simp
  | succ m ihn =>
    intro t hs hw
    cases t with
    | nil => simp
    | cons e rest =>
      obtain ⟨k, q⟩ := e
      have hqk : q.index = k := hw (k, q) (by simp)
      have hlt : ∀ b ∈ rest, k < b.1 := fun b hb => (List.pairwise_cons.mp hs).1 b hb
      have hdel : rtDelete ((k, q) :: rest) k = rest :=
        rtDelete_cons k q rest (fun b hb => Nat.ne_of_gt (hlt b hb))
      simp only [List.take_succ_cons, List.foldl_cons, List.drop_succ_cons]
      rw [show ((k, q) : Nat × Page).2.index = k from hqk, hdel]
      exact ihn rest (List.pairwise_cons.mp hs).2 (fun b hb => hw b (by simp [hb]))

theorem foldl_last_mem (l : List (Nat × Page)) : ∀ i : Nat, l = [] ∨
    ∃ e ∈ l, l.foldl (fun _ x => x.2.index) i = e.2.index := by
  induction l with
  | nil =>
    intro i
    exact Or.inl rfl
  | cons a rest ih =>
    intro i
    right
    rcases ih a.2.index with hnil | ⟨e, he, heq⟩
    · subst hnil
      exact ⟨a, by simp, by simp⟩
    · exact ⟨e, by simp [he], by simpa using heq⟩

theorem brdFreeLoop_spec : ∀ (fuel : Nat) (t : RadixTree) (pos : Nat),
    List.Pairwise (fun a b => a.1 < b.1) t → (∀ e ∈ t, e.2.index = e.1) →
    (∀ e ∈ t, pos ≤ e.1) → t.length ≤ FREE_BATCH * fuel →
    (brdFreeLoop fuel pos t).tree = [] ∧
    (∀ b ∈ (brdFreeLoop fuel pos t).batches, b ≤ FREE_BATCH) ∧
    (brdFreeLoop fuel pos t).yields = (brdFreeLoop fuel pos t).batches.length := by
  intro fuel
  induction fuel with
  | zero =>
    intro t pos hs hw hpos hlen
    have ht : t = [] := by
      cases t with
      | nil => rfl
      | cons a rest => simp [FREE_BATCH] at hlen
    subst ht
    exact ⟨rfl, by simp [brdFreeLoop], rfl⟩
  | succ m ihm =>
    intro t pos hs hw hpos hlen
    have hgang : radix_tree_gang_lookup t pos FREE_BATCH = t.take FREE_BATCH :=
      gang_eq_take t pos FREE_BATCH hpos
    have hfold : (t.take FREE_BATCH).foldl (fun acc e => rtDelete acc e.2.index) t
        = t.drop FREE_BATCH := foldl_delete_take FREE_BATCH t hs hw
    simp only [brdFreeLoop, hgang, hfold]
    by_cases hnr : (t.take FREE_BATCH).length = FREE_BATCH
    · rw [if_pos hnr]
      have hs' : List.Pairwise (fun a b => a.1 < b.1) (t.drop FREE_BATCH) :=
        hs.sublist (List.drop_sublist FREE_BATCH t)
      have hw' : ∀ e ∈ t.drop FREE_BATCH, e.2.index = e.1 :=
        fun e he => hw e (List.mem_of_mem_drop he)
      have hcross : ∀ a ∈ t.take FREE_BATCH, ∀ b ∈ t.drop FREE_BATCH, a.1 < b.1 := by
        have hsplit := hs
        rw [← List.take_append_drop FREE_BATCH t] at hsplit
        exact (List.pairwise_append.mp hsplit).2.2
      have hpos2 : ∀ e ∈ t.drop FREE_BATCH,
          ((t.take FREE_BATCH).foldl (fun _ x => x.2.index) pos) + 1 ≤ e.1 := by
        intro e he
        rcases foldl_last_mem (t.take FREE_BATCH) pos with hnil | ⟨a, ha, heq⟩
        · rw [hnil] at hnr
          simp [FREE_BATCH] at hnr
        · rw [heq, hw a (List.mem_of_mem_take ha)]
          have := hcross a ha e he
          omega
      have hlen' : (t.drop FREE_BATCH).length ≤ FREE_BATCH * m := by
        rw [List.length_drop]
        have h16 : FREE_BATCH = 16 := rfl
        rw [h16] at hlen ⊢
        have htl : t.length ≥ 16 := by
          have hmin := List.length_take FREE_BATCH t
          rw [hnr] at hmin
          rw [show (16 : Nat) = FREE_BATCH from rfl]
          omega
        omega
      obtain ⟨h1, h2, h3⟩ := ihm (t.drop FREE_BATCH)
        (((t.take FREE_BATCH).foldl (fun _ x => x.2.index) pos) + 1) hs' hw' hpos2 hlen'
      refine ⟨h1, ?_, ?_⟩
      · intro b hb
        simp only [List.mem_cons] at hb
        rcases hb with hb | hb
        · rw [hb, hnr]
        · exact h2 b hb
      · simp only [List.length_cons, h3]
        omega
    · rw [if_neg hnr]
      have hsmall : t.length < FREE_BATCH := by
        have hmin := List.length_take FREE_BATCH t
        omega
      refine ⟨List.drop_eq_nil_of_le (by omega), ?_, rfl⟩
      intro b hb
      simp only [List.mem_singleton] at hb
      rw [hb]
      have hmin := List.length_take FREE_BATCH t
      omega

/-- Claim C8: for a well-formed store (strictly increasing keys, recorded
index equal to key — the radix-tree invariants), `brd_free_pages` removes
every page, pages are processed in batches of at most FREE_BATCH = 16, and
a `cond_resched()` yield runs after every batch, hence between any two
consecutive batches. -/
theorem C8_drop_all (t : RadixTree)
    (hs : List.Pairwise (fun a b => a.1 < b.1) t)
    (hw : ∀ e ∈ t, e.2.index = e.1) :
    (brd_free_pages t).tree = [] ∧
    (∀ b ∈ (brd_free_pages t).batches, b ≤ FREE_BATCH) ∧
    (brd_free_pages t).yields = (brd_free_pages t).batches.length := by
  unfold brd_free_pages
  refine brdFreeLoop_spec (t.length + 1) t 0 hs hw (fun e _ => Nat.zero_le _) ?_
  have h16 : FREE_BATCH = 16 := rfl
  rw [h16]
  omega

/-- Witness for C8: a two-page store is fully freed in one batch of two
pages, with one yield. -/
theorem C8_witness :
    (brd_free_pages [(0, zeroPage 0), (3, zeroPage 3)]).tree = [] ∧
    (∀ b ∈ (brd_free_pages [(0, zeroPage 0), (3, zeroPage 3)]).batches,
      b ≤ FREE_BATCH) ∧
    (brd_free_pages [(0, zeroPage 0), (3, zeroPage 3)]).yields =
      (brd_free_pages [(0, zeroPage 0), (3, zeroPage 3)]).batches.length :=
  C8_drop_all [(0, zeroPage 0), (3, zeroPage 3)]
    (by simp [zeroPage])
    (by decide)

/-! ### Presence lemmas for the page-store invariant analysis -/

theorem rtLookup_rtUpdate_isSome (t : RadixTree) (idx j : Nat) (f : Page → Page) :
    (rtLookup (rtUpdate t idx f) j).isSome = (rtLookup t j).isSome := by
  by_cases hj : j = idx
  · subst hj
    rw [rtLookup_rtUpdate_same]
    cases rtLookup t j <;> rfl
  · rw [rtLookup_rtUpdate_other _ _ _ _ hj]

theorem brd_write_page_isSome (t : RadixTree) (sector : Nat) (f : Page → Page)
    (j : Nat) :
    (rtLookup (brd_write_page t sector f) j).isSome = (rtLookup t j).isSome := by
  rcases hl : brd_lookup_page t sector with _ | p
  · simp [brd_write_page, hl]
  · simp [brd_write_page, hl, rtLookup_rtUpdate_isSome]

theorem copy_to_brd_isSome (t : RadixTree) (src : Nat → Nat) (srcOff sector n j : Nat) :
    (rtLookup (copy_to_brd t src srcOff sector n) j).isSome = (rtLookup t j).isSome := by
  simp only [copy_to_brd]
  by_cases hc : min n (PAGE_SIZE - ((sector &&& (PAGE_SECTORS - 1)) <<< SECTOR_SHIFT)) < n
  · rw [if_pos hc, brd_write_page_isSome, brd_write_page_isSome]
  · rw [if_neg hc, brd_write_page_isSome]

theorem brd_insert_page_isSome_mono (alloc : List Bool) (t : RadixTree)
    (sector j : Nat) (h : (rtLookup t j).isSome = true) :
    (rtLookup (brd_insert_page alloc t sector).2.1 j).isSome = true := by
  by_cases hj : j = sector >>> PAGE_SECTORS_SHIFT
  · subst hj
    rcases hl : brd_lookup_page t sector with _ | p
    · simp only [brd_lookup_page] at hl
      rw [hl] at h
      simp at h
    · rw [brd_insert_page_found alloc t sector p hl]
      exact h
  · rw [brd_insert_page_frame alloc t sector j hj]
    exact h

theorem copy_to_brd_setup_mono (alloc : List Bool) (t : RadixTree) (sector n j : Nat)
    (h : (rtLookup t j).isSome = true) :
    (rtLookup (copy_to_brd_setup alloc t sector n).2.1 j).isSome = true := by
  rcases h1 : (brd_insert_page alloc t sector).1 with _ | p
  · simp only [copy_to_brd_setup, h1]
    exact brd_insert_page_isSome_mono alloc t sector j h
  · simp only [copy_to_brd_setup, h1]
    by_cases hc : min n (PAGE_SIZE - ((sector &&& (PAGE_SECTORS - 1)) <<< SECTOR_SHIFT)) < n
    · rw [if_pos hc]
      rcases h2 : (brd_insert_page (brd_insert_page alloc t sector).2.2
          (brd_insert_page alloc t sector).2.1
          (sector + ((min n (PAGE_SIZE - ((sector &&& (PAGE_SECTORS - 1)) <<< SECTOR_SHIFT)))
            >>> SECTOR_SHIFT))).1 with _ | q
      · simp only [h2]
        exact brd_insert_page_isSome_mono _ _ _ j
          (brd_insert_page_isSome_mono alloc t sector j h)
      · simp only [h2]
        exact brd_insert_page_isSome_mono _ _ _ j
          (brd_insert_page_isSome_mono alloc t sector j h)
    · rw [if_neg hc]
      exact brd_insert_page_isSome_mono alloc t sector j h

theorem copy_to_brd_setup_frame (alloc : List Bool) (t : RadixTree) (sector n j : Nat)
    (hj1 : j ≠ sector >>> PAGE_SECTORS_SHIFT)
    (hj2 : min n (PAGE_SIZE - ((sector &&& (PAGE_SECTORS - 1)) <<< SECTOR_SHIFT)) < n →
      j ≠ (sector + ((min n (PAGE_SIZE - ((sector &&& (PAGE_SECTORS - 1)) <<< SECTOR_SHIFT)))
        >>> SECTOR_SHIFT)) >>> PAGE_SECTORS_SHIFT) :
    rtLookup (copy_to_brd_setup alloc t sector n).2.1 j = rtLookup t j := by
  rcases h1 : (brd_insert_page alloc t sector).1 with _ | p
  · simp only [copy_to_brd_setup, h1]
    exact brd_insert_page_frame alloc t sector j hj1
  · simp only [copy_to_brd_setup, h1]
    by_cases hc : min n (PAGE_SIZE - ((sector &&& (PAGE_SECTORS - 1)) <<< SECTOR_SHIFT)) < n
    · rw [if_pos hc]
      rcases h2 : (brd_insert_page (brd_insert_page alloc t sector).2.2
          (brd_insert_page alloc t sector).2.1
          (sector + ((min n (PAGE_SIZE - ((sector &&& (PAGE_SECTORS - 1)) <<< SECTOR_SHIFT)))
            >>> SECTOR_SHIFT))).1 with _ | q
      · simp only [h2]
        rw [brd_insert_page_frame _ _ _ _ (hj2 hc)]
        exact brd_insert_page_frame alloc t sector j hj1
      · simp only [h2]
        rw [brd_insert_page_frame _ _ _ _ (hj2 hc)]
        exact brd_insert_page_frame alloc t sector j hj1
    · rw [if_neg hc]
      exact brd_insert_page_frame alloc t sector j hj1

theorem brd_do_bvec_tree_cases (alloc : List Bool) (t : RadixTree) (mem : Nat → Nat)
    (len off op sector : Nat) :
    (brd_do_bvec alloc t mem len off op sector).tree = t ∨
    (brd_do_bvec alloc t mem len off op sector).tree =
      (copy_to_brd_setup alloc t sector len).2.1 ∨
    (brd_do_bvec alloc t mem len off op sector).tree =
      copy_to_brd (copy_to_brd_setup alloc t sector len).2.1 mem off sector len := by
  by_cases hop : op_is_write op = true
  · by_cases hs : (copy_to_brd_setup alloc t sector len).1 = 0
    · right
      right
      rw [brd_do_bvec_write_ok alloc t mem len off op sector hop hs]
    · right
      left
      rw [brd_do_bvec_write_fail alloc t mem len off op sector hop hs]
  · left
    have hopf : op_is_write op = false := by
      cases hx : op_is_write op
      · rfl
      · exact absurd hx hop
    rw [brd_do_bvec_read_op alloc t mem len off op sector hopf]

theorem brd_do_bvec_isSome_mono (alloc : List Bool) (t : RadixTree) (mem : Nat → Nat)
    (len off op sector j : Nat) (h : (rtLookup t j).isSome = true) :
    (rtLookup (brd_do_bvec alloc t mem len off op sector).tree j).isSome = true := by
  rcases brd_do_bvec_tree_cases alloc t mem len off op sector with h1 | h1 | h1 <;> rw [h1]
  · exact h
  · exact copy_to_brd_setup_mono alloc t sector len j h
  · rw [copy_to_brd_isSome]
    exact copy_to_brd_setup_mono alloc t sector len j h

theorem brd_do_bvec_isSome_of (alloc : List Bool) (t : RadixTree) (mem : Nat → Nat)
    (len off op sector j : Nat)
    (h : (rtLookup (brd_do_bvec alloc t mem len off op sector).tree j).isSome = true) :
    (rtLookup t j).isSome = true ∨ j = sector >>> PAGE_SECTORS_SHIFT ∨
      (min len (PAGE_SIZE - ((sector &&& (PAGE_SECTORS - 1)) <<< SECTOR_SHIFT)) < len ∧
       j = (sector + ((min len (PAGE_SIZE - ((sector &&& (PAGE_SECTORS - 1)) <<< SECTOR_SHIFT)))
         >>> SECTOR_SHIFT)) >>> PAGE_SECTORS_SHIFT) := by
  by_cases hj1 : j = sector >>> PAGE_SECTORS_SHIFT
  · exact Or.inr (Or.inl hj1)
  by_cases hj2 : min len (PAGE_SIZE - ((sector &&& (PAGE_SECTORS - 1)) <<< SECTOR_SHIFT)) < len ∧
      j = (sector + ((min len (PAGE_SIZE - ((sector &&& (PAGE_SECTORS - 1)) <<< SECTOR_SHIFT)))
        >>> SECTOR_SHIFT)) >>> PAGE_SECTORS_SHIFT
  · exact Or.inr (Or.inr hj2)
  · left
    have hframe : rtLookup (copy_to_brd_setup alloc t sector len).2.1 j = rtLookup t j := by
      refine copy_to_brd_setup_frame alloc t sector len j hj1 ?_
      intro hc heq
      exact hj2 ⟨hc, heq⟩
    rcases brd_do_bvec_tree_cases alloc t mem len off op sector with h1 | h1 | h1 <;>
      rw [h1] at h
    · exact h
    · rw [hframe] at h
      exact h
    · rw [copy_to_brd_isSome, hframe] at h
      exact h

theorem brd_do_bvec_write_present (alloc : List Bool) (t : RadixTree) (mem : Nat → Nat)
    (len off op sector : Nat) (hop : op_is_write op = true)
    (hw : (brd_do_bvec alloc t mem len off op sector).err = 0) :
    (rtLookup (brd_do_bvec alloc t mem len off op sector).tree
      (sector >>> PAGE_SECTORS_SHIFT)).isSome = true ∧
    (min len (PAGE_SIZE - ((sector &&& (PAGE_SECTORS - 1)) <<< SECTOR_SHIFT)) < len →
      (rtLookup (brd_do_bvec alloc t mem len off op sector).tree
        ((sector + ((min len (PAGE_SIZE - ((sector &&& (PAGE_SECTORS - 1)) <<< SECTOR_SHIFT)))
          >>> SECTOR_SHIFT)) >>> PAGE_SECTORS_SHIFT)).isSome = true) := by
  have hs : (copy_to_brd_setup alloc t sector len).1 = 0 := by
    by_contra hne
    rw [brd_do_bvec_write_fail alloc t mem len off op sector hop hne] at hw
    exact hne hw
  rw [brd_do_bvec_write_ok alloc t mem len off op sector hop hs]
  obtain ⟨⟨p1, hp1⟩, hp2⟩ := copy_to_brd_setup_lookup alloc t sector len hs
  constructor
  · simp only [copy_to_brd_isSome]
    simp only [brd_lookup_page] at hp1
    rw [hp1]
    rfl
  · intro hc
    obtain ⟨p2, hp2c⟩ := hp2 hc
    simp only [copy_to_brd_isSome]
    simp only [brd_lookup_page] at hp2c
    rw [hp2c]
    rfl

theorem hits_targets (sector len idx : Nat) (hlen : len ≤ PAGE_SIZE)
    (hhit : intervalHitsPage (sector <<< SECTOR_SHIFT, len) idx = true) :
    idx = sector >>> PAGE_SECTORS_SHIFT ∨
      (min len (PAGE_SIZE - ((sector &&& (PAGE_SECTORS - 1)) <<< SECTOR_SHIFT)) < len ∧
       idx = (sector + ((min len (PAGE_SIZE - ((sector &&& (PAGE_SECTORS - 1)) <<< SECTOR_SHIFT)))
         >>> SECTOR_SHIFT)) >>> PAGE_SECTORS_SHIFT) := by
  simp only [intervalHitsPage, decide_eq_true_eq] at hhit
  rw [offset_eq, shiftr_sector_eq, shiftr_sectors_eq, shiftr_sectors_eq, page_size_eq]
  rw [page_size_eq] at hhit hlen
  rw [Nat.shiftLeft_eq] at hhit
  have h29 : (2 : Nat) ^ SECTOR_SHIFT = 512 := rfl
  rw [h29] at hhit
  omega

theorem stepOp_isSome_mono (t : RadixTree) (op : TraceOp) (j : Nat)
    (h : (rtLookup t j).isSome = true) :
    (rtLookup (stepOp t op).1 j).isSome = true := by
  cases op with
  | wr alloc mem len off sector =>
    simp only [stepOp]
    exact brd_do_bvec_isSome_mono alloc t mem len off REQ_OP_WRITE sector j h
  | rd len off sector =>
    simp only [stepOp]
    exact brd_do_bvec_isSome_mono [] t (fun _ => 0) len off REQ_OP_READ sector j h

theorem stepOp_isSome_of (t : RadixTree) (op : TraceOp) (j : Nat)
    (h : (rtLookup (stepOp t op).1 j).isSome = true) :
    (rtLookup t j).isSome = true ∨ j ∈ opTargets op := by
  cases op with
  | wr alloc mem len off sector =>
    simp only [stepOp] at h
    rcases brd_do_bvec_isSome_of alloc t mem len off REQ_OP_WRITE sector j h with
      h1 | h1 | h1
    · exact Or.inl h1
    · right
      simp only [opTargets]
      by_cases hc : min len (PAGE_SIZE -
          ((sector &&& (PAGE_SECTORS - 1)) <<< SECTOR_SHIFT)) < len
      · rw [if_pos hc]
        simp [h1]
      · rw [if_neg hc]
        simp [h1]
    · right
      simp only [opTargets]
      rw [if_pos h1.1]
      simp [h1.2]
  | rd len off sector =>
    simp only [stepOp, brd_do_bvec_read] at h
    exact Or.inl h

theorem stepOp_write_present (t : RadixTree) (alloc : List Bool) (mem : Nat → Nat)
    (len off sector : Nat) (iv : Nat × Nat)
    (hsucc : (stepOp t (TraceOp.wr alloc mem len off sector)).2 = some iv) :
    ∀ j ∈ opTargets (TraceOp.wr alloc mem len off sector),
      (rtLookup (stepOp t (TraceOp.wr alloc mem len off sector)).1 j).isSome = true := by
  intro j hj
  have herr : (brd_do_bvec alloc t mem len off REQ_OP_WRITE sector).err = 0 := by
    simp only [stepOp] at hsucc
    by_cases he : (brd_do_bvec alloc t mem len off REQ_OP_WRITE sector).err = 0
    · exact he
    · rw [if_neg he] at hsucc
      exact absurd hsucc (by simp)
  obtain ⟨hpr1, hpr2⟩ := brd_do_bvec_write_present alloc t mem len off REQ_OP_WRITE
    sector (by decide) herr
  simp only [opTargets] at hj
  simp only [stepOp]
  by_cases hc : min len (PAGE_SIZE - ((sector &&& (PAGE_SECTORS - 1)) <<< SECTOR_SHIFT)) < len
  · rw [if_pos hc] at hj
    simp only [List.mem_cons, List.mem_singleton] at hj
    rcases hj with hj | hj | hj
    · rw [hj]
      exact hpr1
    · rw [hj]
      exact hpr2 hc
    · exact absurd hj (by simp)
  · rw [if_neg hc] at hj
    simp only [List.mem_singleton] at hj
    rw [hj]
    exact hpr1

theorem runTraceAux_spec (ops : List TraceOp) : ∀ t w,
    (∀ op ∈ ops, opLenOk op) →
    ((∀ idx, (rtLookup (runTraceAux t w ops).1 idx).isSome = true →
       (rtLookup t idx).isSome = true ∨ idx ∈ traceTargets ops) ∧
     (∀ idx, (rtLookup t idx).isSome = true →
       (rtLookup (runTraceAux t w ops).1 idx).isSome = true) ∧
     (∀ idx, pageWritten (runTraceAux t w ops).2 idx = true →
       pageWritten w idx = true ∨
         (rtLookup (runTraceAux t w ops).1 idx).isSome = true)) := by
  induction ops with
  | nil =>
    intro t w _
    exact ⟨fun idx h => Or.inl h, fun idx h => h, fun idx h => Or.inl h⟩
  | cons op rest ih =>
    intro t w hlen
    have hlenop : opLenOk op := hlen op (by simp)
    have hlenrest : ∀ o ∈ rest, opLenOk o := fun o ho => hlen o (by simp [ho])
    obtain ⟨ih1, ih2, ih3⟩ := ih (stepOp t op).1
      (match (stepOp t op).2 with | some iv => w ++ [iv] | none => w) hlenrest
    refine ⟨?_, ?_, ?_⟩
    · intro idx h
      simp only [runTraceAux] at h
      rcases ih1 idx h with h1 | h1
      · rcases stepOp_isSome_of t op idx h1 with h2 | h2
        · exact Or.inl h2
        · right
          simp only [traceTargets, List.map_cons, List.flatten_cons, List.mem_append]
          exact Or.inl h2
      · right
        simp only [traceTargets, List.map_cons, List.flatten_cons, List.mem_append]
        right
        simpa [traceTargets] using h1
    · intro idx h
      simp only [runTraceAux]
      exact ih2 idx (stepOp_isSome_mono t op idx h)
    · intro idx h
      simp only [runTraceAux] at h ⊢
      rcases ih3 idx h with h1 | h1
      · cases op with
        | rd len off sector =>
          have hnone : (stepOp t (TraceOp.rd len off sector)).2 = none := rfl
          rw [hnone] at h1
          exact Or.inl h1
        | wr alloc mem len off sector =>
          by_cases he : (brd_do_bvec alloc t mem len off REQ_OP_WRITE sector).err = 0
          · have hsome : (stepOp t (TraceOp.wr alloc mem len off sector)).2 =
                some (sector <<< SECTOR_SHIFT, len) := by
              simp only [stepOp, if_pos he]
            rw [hsome] at h1
            simp only [pageWritten, List.any_append, Bool.or_eq_true, List.any_cons,
              List.any_nil, Bool.or_false] at h1
            rcases h1 with h1 | h1
            · exact Or.inl h1
            · right
              have hidx := hits_targets sector len idx hlenop h1
              have hpres : (rtLookup (stepOp t (TraceOp.wr alloc mem len off sector)).1
                  idx).isSome = true := by
                refine stepOp_write_present t alloc mem len off sector
                  (sector <<< SECTOR_SHIFT, len) ?_ idx ?_
                · simp only [stepOp, if_pos he]
                · simp only [opTargets]
                  rcases hidx with hidx | ⟨hc, hidx⟩
                  · by_cases hc : min len (PAGE_SIZE -
                        ((sector &&& (PAGE_SECTORS - 1)) <<< SECTOR_SHIFT)) < len
                    · rw [if_pos hc]
                      simp [hidx]
                    · rw [if_neg hc]
                      simp [hidx]
                  · rw [if_pos hc]
                    simp [hidx]
              exact ih2 idx hpres
          · have hnone : (stepOp t (TraceOp.wr alloc mem len off sector)).2 = none := by
              simp only [stepOp, if_neg he]
            rw [hnone] at h1
            exact Or.inl h1
      · exact Or.inr h1

/-- Claim C6 (amended): over every trace of reads and writes from a fresh
device, (i) a page can be present only at an index some write segment
targeted through `copy_to_brd_setup` — in particular reads never create
pages — and (ii) every page containing a byte written by a successful write
is present.  Presence does not imply a written byte: a boundary-crossing
write whose second allocation fails, or a zero-length write, leaves an
allocated zero page with no byte written (see the counterexample). -/
theorem C6_presence_vs_writes (ops : List TraceOp)
    (hlen : ∀ op ∈ ops, opLenOk op) :
    (∀ idx, (rtLookup (runTrace ops).1 idx).isSome = true →
      idx ∈ traceTargets ops) ∧
    (∀ idx, pageWritten (runTrace ops).2 idx = true →
      (rtLookup (runTrace ops).1 idx).isSome = true) := by
  obtain ⟨h1, h2, h3⟩ := runTraceAux_spec ops [] [] hlen
  constructor
  · intro idx h
    rcases h1 idx h with hx | hx
    · simp [rtLookup] at hx
    · exact hx
  · intro idx h
    rcases h3 idx h with hx | hx
    · simp [pageWritten] at hx
    · exact hx

/-- Counterexample for C6 as frozen: after the single (failed,
boundary-crossing) write of `c6trace`, the page at index 0 is present even
though no byte of the device has ever been written, so presence is not
equivalent to a byte having been written. -/
theorem C6_counterexample : presentIffWritten c6trace 0 = false := by decide

/-- Witness for C6 at the concrete trace: the page at index 0 is present
and, by the amended theorem, index 0 is among the write targets of the
trace. -/
theorem C6_witness :
    (rtLookup (runTrace c6trace).1 0).isSome = true ∧ 0 ∈ traceTargets c6trace :=
  ⟨by decide,
    (C6_presence_vs_writes c6trace
      (by
        intro op hop
        simp only [c6trace, List.mem_singleton] at hop
        subst hop
        exact Nat.le_refl _)).1 0 (by decide)⟩

end Brd
